import Mathlib

/-! Verification of the price-observation pipeline of a products-watchlist monitor.

Shallow embedding of the repository's core logic:
* `scheduler/price_checker.py` — `check_single_product`, tier rotation jobs;
* `amazon/scraper.py` — `_extract_price_from_text` (locale-tolerant price parsing);
* `amazon/api_client.py` — `_sign_request` (AWS SigV4-style request signing);
* `amazon/parser.py` — `extract_asin_from_url`, `is_valid_asin`.

Modelling conventions: monetary values are exact rationals (the Python code uses
floats produced from short decimal strings); timestamps are integers counted in
days (the code uses UTC datetimes and a 180-day window, and `.days` differences);
SQL `NULL` is `Option.none`; Python truthiness of optional floats (`None` and
`0.0` are falsy) is `truthyQ`, of optional strings (`None` and `""` falsy) is
`truthyS`.  Characters are modelled with ASCII case semantics.  Outbound I/O
(Telegram sends, channel broadcast) touches no stored state and is represented
only by the `notified` flag of a check result. -/

/-- Python truthiness of an optional numeric value: `None` and `0.0` are falsy. -/
def truthyQ : Option ℚ → Bool
  | none => false
  | some x => x != 0

/-- Python truthiness of an optional string: `None` and `""` are falsy. -/
def truthyS : Option String → Bool
  | none => false
  | some s => s != ""

/-- One row of the `price_history` table (model of `PriceHistory`). -/
structure HistoryRow where
  price : ℚ
  currency : String
  checkedAt : ℤ
  deriving DecidableEq

/-- The mutable columns of a `Product` row used by the checker. -/
structure ProductState where
  asin : String
  title : Option String
  url : Option String
  initialPrice : Option ℚ
  targetPrice : Option ℚ
  deriving DecidableEq

/-- A product together with its price history rows. -/
structure ItemState where
  product : ProductState
  history : List HistoryRow
  deriving DecidableEq

/-- Result dictionary of one fetch attempt (`get_product_info`): the keys of the
`product_info` dict consumed by `check_single_product`.  A failed fetch is
`none` at the `Option Snapshot` level; a fetch that yielded no price has
`price = none`. -/
structure Snapshot where
  title : Option String
  price : Option ℚ
  currency : Option String
  url : Option String
  deriving DecidableEq

/-- The `price_stats` dictionary built for FOMO messages. -/
structure PriceStats where
  isHistoricalMin : Bool
  is6MonthMin : Bool
  avgPrice : Option ℚ
  percentBelowAvg : Option ℚ
  daysSinceLowest : Option ℤ
  deriving DecidableEq

/-- Initial value of `price_stats` (all flags clear). -/
def emptyStats : PriceStats := ⟨false, false, none, none, none⟩

/-- Outcome of `check_single_product`: the updated stored state, whether a
notifiable drop was found (`price_dropped`), the `comparison_price`, and the
computed statistics. -/
structure CheckResult where
  state : ItemState
  notified : Bool
  comparisonPrice : Option ℚ
  stats : PriceStats
  deriving DecidableEq

/-- The most recent history row: `ORDER BY checked_at DESC ... first()`.
On ties the earliest-listed row is kept (database order is unspecified). -/
def latestRow : List HistoryRow → Option HistoryRow
  | [] => none
  | r :: rs => some (rs.foldl (fun best x => if best.checkedAt < x.checkedAt then x else best) r)

/-- Replace the first row carrying timestamp `m` by `new`. -/
def replaceFirstAt (m : ℤ) (new : HistoryRow) : List HistoryRow → List HistoryRow
  | [] => []
  | r :: rs => if r.checkedAt = m then new :: rs else r :: replaceFirstAt m new rs

/-- Largest `checked_at` over `r :: rs`. -/
def maxCheckedAt (r : HistoryRow) (rs : List HistoryRow) : ℤ :=
  rs.foldl (fun a x => max a x.checkedAt) r.checkedAt

/-- Update-in-place of the most recent history row (price, currency and
timestamp are overwritten), as done at lines 66-69 of `price_checker.py`. -/
def updateLatest (h : List HistoryRow) (p : ℚ) (c : String) (t : ℤ) : List HistoryRow :=
  match h with
  | [] => []
  | r :: rs => replaceFirstAt (maxCheckedAt r rs) ⟨p, c, t⟩ (r :: rs)

/-- `SELECT MIN(price)` over a product's history rows (`None` when empty). -/
def histMin : List HistoryRow → Option ℚ
  | [] => none
  | r :: rs => some (rs.foldl (fun a x => min a x.price) r.price)

/-- Python `o and cur < o` for an optional threshold `o`: falsy (`None`/`0`)
thresholds never qualify. -/
def belowTruthy (o : Option ℚ) (cur : ℚ) : Bool :=
  match o with
  | none => false
  | some x => x != 0 && decide (cur < x)

/-- Drop-detection block of `check_single_product` (lines 86-115):
given the previous observed price, the current price, the target price and the
(backfilled) initial price, decide `price_dropped` and `comparison_price`. -/
def dropDecision (previousPrice : Option ℚ) (currentPrice : ℚ)
    (targetPrice initialAfter : Option ℚ) : Bool × Option ℚ :=
  if truthyQ previousPrice then
    if currentPrice < previousPrice.getD 0 then
      if belowTruthy targetPrice currentPrice || belowTruthy initialAfter currentPrice then
        (true, previousPrice)
      else (false, none)
    else (false, none)
  else
    if belowTruthy targetPrice currentPrice then (true, initialAfter) else (false, none)

/-- Rows of the trailing 180-day window (`checked_at >= six_months_ago`). -/
def windowOf (h : List HistoryRow) (now : ℤ) : List HistoryRow :=
  h.filter (fun r => decide (now - 180 ≤ r.checkedAt))

/-- Statistics block of `check_single_product` (lines 164-206), evaluated on
the already-updated history: 180-day minimum and mean, all-time minimum,
historical-minimum and six-month-minimum flags, percent below average (set
whenever the mean is truthy and the current price is below it), and days since
the all-time minimum was first seen (only when the current price is not itself
the historical minimum). -/
def computeStats (history2 : List HistoryRow) (currentPrice : ℚ) (now : ℤ) : PriceStats :=
  match windowOf history2 now with
  | [] => emptyStats
  | w :: ws =>
    let prices := (w :: ws).map (fun r => r.price)
    let minPrice6m := (ws.map (fun r => r.price)).foldl min w.price
    let avgPrice := prices.sum / (prices.length : ℚ)
    let allTimeMin := histMin history2
    let isHistoricalMin :=
      match allTimeMin with
      | some m => decide (currentPrice ≤ m)
      | none => true
    let is6MonthMin := decide (currentPrice ≤ minPrice6m)
    let pba : Option ℚ × Option ℚ :=
      if avgPrice ≠ 0 ∧ currentPrice < avgPrice then
        (some avgPrice, some ((avgPrice - currentPrice) / avgPrice * 100))
      else (none, none)
    let daysSinceLowest : Option ℤ :=
      if isHistoricalMin = false ∧ allTimeMin.isSome then
        match (history2.filter (fun r => decide (r.price = allTimeMin.getD 0))).map
            (fun r => r.checkedAt) with
        | [] => none
        | t :: ts => some (now - ts.foldl min t)
      else none
    ⟨isHistoricalMin, is6MonthMin, pba.1, pba.2, daysSinceLowest⟩

/-- History-update block of `check_single_product` (lines 64-78): update the
most recent row in place when one exists, else insert a first row. -/
def historyAfter (h : List HistoryRow) (p : ℚ) (c : String) (t : ℤ) : List HistoryRow :=
  match latestRow h with
  | some _ => updateLatest h p c t
  | none => h ++ [⟨p, c, t⟩]

/-- Prices of the trailing 180-day window. -/
def windowPrices (h : List HistoryRow) (now : ℤ) : List ℚ :=
  (windowOf h now).map (fun r => r.price)

/-- Mean price over the trailing 180-day window (`sum(prices)/len(prices)`). -/
def windowAvg (h : List HistoryRow) (now : ℤ) : ℚ :=
  (windowPrices h now).sum / ((windowPrices h now).length : ℚ)

/-- One run of `check_single_product` for a product in state `st`, with fetch
outcome `fetch` at time `now`.  A `none` fetch or a priceless snapshot returns
before touching any stored state.  On success: title and URL are backfilled if
unset, the latest history row is updated in place (or a first row inserted),
`initial_price` is backfilled if falsy, the drop decision is taken, and the
statistics are computed only when a notifiable drop was found.  The channel
broadcast and per-user sends (lines 117-150, 208-255) are outbound messaging
only and change no stored state. -/
def checkSingleProduct (st : ItemState) (fetch : Option Snapshot) (now : ℤ) : CheckResult :=
  match fetch with
  | none => ⟨st, false, none, emptyStats⟩
  | some info =>
    match info.price with
    | none => ⟨st, false, none, emptyStats⟩
    | some currentPrice =>
      let currency := info.currency.getD "EUR"
      let title1 := if truthyS info.title && !truthyS st.product.title then info.title
        else st.product.title
      let url1 := if truthyS info.url && !truthyS st.product.url then info.url
        else st.product.url
      let previousRecord := latestRow st.history
      let previousPrice := previousRecord.map (fun r => r.price)
      let history2 := historyAfter st.history currentPrice currency now
      let initialAfter := if truthyQ st.product.initialPrice then st.product.initialPrice
        else some currentPrice
      let dp := dropDecision previousPrice currentPrice st.product.targetPrice initialAfter
      let stats := if dp.1 then computeStats history2 currentPrice now else emptyStats
      ⟨⟨⟨st.product.asin, title1, url1, initialAfter, st.product.targetPrice⟩, history2⟩,
        dp.1, dp.2, stats⟩

/-- Snapshot carrying only a price, as in a successful minimal fetch. -/
def mkSnapshot (p : ℚ) : Snapshot := ⟨none, some p, none, none⟩

/-- Repeated checks of one item over a list of fetched prices, advancing the
clock by one day per check; returns the final state and the list of
notification flags. -/
def runPrices (st : ItemState) (now : ℤ) : List ℚ → ItemState × List Bool
  | [] => (st, [])
  | p :: ps =>
    let r := checkSingleProduct st (some (mkSnapshot p)) now
    let rest := runPrices r.state (now + 1) ps
    (rest.1, r.notified :: rest.2)

/-- Rotation loop of `check_prices_job_vip` / `check_prices_job_regular`
(lines 317-324): with population size `n`, starting cursor `idx`, process
`budget` items, visiting `products[idx % n]` and advancing the shared cursor to
`(idx + 1) % n` each step.  Returns the visited indices and the final cursor. -/
def rotationRun (n : Nat) : Nat → Nat → List Nat × Nat
  | 0, idx => ([], idx)
  | b + 1, idx =>
    let rest := rotationRun n b ((idx + 1) % n)
    ((idx % n) :: rest.1, rest.2)

/-- Fast-tier per-run cap: 600 products per minute run at one item per 0.1 s. -/
def maxProductsPerMinute : Nat := 600

/-- Standard-tier per-run cap: 9000 products per 15-minute run at 0.1 s each. -/
def maxProductsPerCycle : Nat := 9000

/-- Fast-tier budget: `min(len(products), max_products_per_minute)`. -/
def vipProductsToCheck (n : Nat) : Nat := min n maxProductsPerMinute

/-- Standard-tier budget: `min(len(products), max_products_per_cycle)`. -/
def regularProductsToCheck (n : Nat) : Nat := min n maxProductsPerCycle

/-- Fields of `AmazonAPIClient` set in `__init__`. -/
structure APIClient where
  accessKey : String
  secretKey : String
  associateTag : String
  region : String
  endpoint : String
  marketplaceId : String
  lastRequestTime : ℚ
  deriving DecidableEq

/-- The `_sign_request` procedure of `api_client.py`, abstract in the two
hash primitives it calls (`hmac.new(..., sha256).digest()` and SHA-256 hex
digesting): canonical request, string-to-sign, derived-key chain, final
signature and Authorization header.  Returns (authorization, signature). -/
def signRequest (hmacDigest : String → String → String) (hexOf : String → String)
    (sha256Hex : String → String) (c : APIClient)
    (method uri payload timestamp : String) : String × String :=
  let canonicalUri := uri
  let canonicalQuerystring := ""
  let canonicalHeaders := "host:" ++ c.endpoint ++ "\nx-amz-date:" ++ timestamp ++ "\n"
  let signedHeaders := "host;x-amz-date"
  let payloadHash := sha256Hex payload
  let canonicalRequest := method ++ "\n" ++ canonicalUri ++ "\n" ++ canonicalQuerystring
    ++ "\n" ++ canonicalHeaders ++ "\n" ++ signedHeaders ++ "\n" ++ payloadHash
  let algorithm := "AWS4-HMAC-SHA256"
  let credentialScope := timestamp.take 8 ++ "/" ++ c.region.toLower
    ++ "/ProductAdvertisingAPI/aws4_request"
  let stringToSign := algorithm ++ "\n" ++ timestamp ++ "\n" ++ credentialScope ++ "\n"
    ++ sha256Hex canonicalRequest
  let kDate := hmacDigest ("AWS4" ++ c.secretKey) (timestamp.take 8)
  let kRegion := hmacDigest kDate c.region.toLower
  let kService := hmacDigest kRegion "ProductAdvertisingAPI"
  let kSigning := hmacDigest kService "aws4_request"
  let signature := hexOf (hmacDigest kSigning stringToSign)
  let authorization := algorithm ++ " Credential=" ++ c.accessKey ++ "/" ++ credentialScope
    ++ ", SignedHeaders=" ++ signedHeaders ++ ", Signature=" ++ signature
  (authorization, signature)

/-- Python whitespace characters stripped by `str.strip()` (ASCII fragment). -/
def isPySpace (c : Char) : Bool :=
  c = ' ' || c = '\t' || c = '\n' || c = '\r' || c = '\x0b' || c = '\x0c'

/-- `str.strip()`: drop leading and trailing whitespace. -/
def pyStrip (s : List Char) : List Char :=
  ((s.dropWhile isPySpace).reverse.dropWhile isPySpace).reverse

/-- `re.sub(r'[€$£¥]', '', ...)`: delete every currency glyph. -/
def stripCurrency (s : List Char) : List Char :=
  s.filter (fun c => !(c = '€' || c = '$' || c = '£' || c = '¥'))

/-- Take exactly `k` decimal digits from the front of `s`, returning them and
the remainder; `none` if fewer than `k` digits lead `s`. -/
def takeDigits : Nat → List Char → Option (List Char × List Char)
  | 0, rest => some ([], rest)
  | _ + 1, [] => none
  | k + 1, c :: cs =>
    if c.isDigit then
      match takeDigits k cs with
      | some (d, rest) => some (c :: d, rest)
      | none => none
    else none

/-- First alternative of `f` over `l` that succeeds (backtracking order). -/
def firstSome {α β : Type} (f : α → Option β) : List α → Option β
  | [] => none
  | a :: as =>
    match f a with
    | some b => some b
    | none => firstSome f as

/-- Alternatives of the greedy group `(?:<sep>\d{3})*` at the head of `s`, in
the backtracking order of the regex engine: most repetitions first, down to the
empty repetition.  Each alternative is (consumed characters, remainder).
`fuel` bounds the recursion (each repetition consumes four characters). -/
def starGroupsFuel (sep : Char) : Nat → List Char → List (List Char × List Char)
  | 0, s => [([], s)]
  | fuel + 1, s =>
    match s with
    | c :: cs =>
      if c = sep then
        match takeDigits 3 cs with
        | some (d, rest) =>
          ((starGroupsFuel sep fuel rest).map (fun pr => (c :: (d ++ pr.1), pr.2))) ++ [([], s)]
        | none => [([], s)]
      else [([], s)]
    | [] => [([], s)]

/-- Greedy-first alternatives of `(?:<sep>\d{3})*` at the head of `s`. -/
def starGroups (sep : Char) (s : List Char) : List (List Char × List Char) :=
  starGroupsFuel sep s.length s

/-- Match `(\d{1,3}(?:<thouSep>\d{3})*)<decSep>(\d{2})` anchored at the head of
`s`, with the regex engine's greedy backtracking (longest `\d{1,3}` first, then
most thousands groups first).  Returns (group 1, group 2). -/
def matchGroupedAt (thouSep decSep : Char) (s : List Char) : Option (List Char × List Char) :=
  firstSome (fun d =>
    match takeDigits d s with
    | none => none
    | some (d1, rest1) =>
      firstSome (fun pr =>
        match pr.2 with
        | c :: cs =>
          if c = decSep then
            match takeDigits 2 cs with
            | some (d2, _) => some (d1 ++ pr.1, d2)
            | none => none
          else none
        | [] => none) (starGroups thouSep rest1)) [3, 2, 1]

/-- `re.search` for the grouped-thousands pattern: leftmost start wins. -/
def searchGrouped (thouSep decSep : Char) : List Char → Option (List Char × List Char)
  | [] => none
  | c :: cs =>
    match matchGroupedAt thouSep decSep (c :: cs) with
    | some r => some r
    | none => searchGrouped thouSep decSep cs

/-- Maximal digit run at the head of `s` and the remainder. -/
def digitRun : List Char → List Char × List Char
  | [] => ([], [])
  | c :: cs =>
    if c.isDigit then
      let pr := digitRun cs
      (c :: pr.1, pr.2)
    else ([], c :: cs)

/-- Match `(\d+)<sep>(\d{2})` anchored at the head of `s`.  Backtracking of the
greedy `\d+` is vacuous here: any shorter digit prefix is followed by a digit,
which cannot equal the non-digit separator. -/
def matchSimpleAt (sep : Char) (s : List Char) : Option (List Char × List Char) :=
  match digitRun s with
  | ([], _) => none
  | (d1, rest) =>
    match rest with
    | c :: cs =>
      if c = sep then
        match takeDigits 2 cs with
        | some (d2, _) => some (d1, d2)
        | none => none
      else none
    | [] => none

/-- `re.search` for `(\d+)<sep>(\d{2})`: leftmost start wins. -/
def searchSimple (sep : Char) : List Char → Option (List Char × List Char)
  | [] => none
  | c :: cs =>
    match matchSimpleAt sep (c :: cs) with
    | some r => some r
    | none => searchSimple sep cs

/-- `re.search(r'(\d+)', ...)`: maximal digit run at the leftmost digit. -/
def searchInt : List Char → Option (List Char)
  | [] => none
  | c :: cs => if c.isDigit then some (digitRun (c :: cs)).1 else searchInt cs

/-- Numeric value of a digit string. -/
def digitsToNat (d : List Char) : Nat :=
  d.foldl (fun a c => 10 * a + (c.toNat - 48)) 0

/-- Value of `float(f"{whole}.{dec}")` for a digit string `whole` and a
two-digit string `dec`, represented exactly as a rational. -/
def ratOfParts (whole dec : List Char) : ℚ :=
  (digitsToNat whole : ℚ) + (digitsToNat dec : ℚ) / 100

/-- Currency-glyph stripping and trimming applied before pattern matching. -/
def normalizeText (s : String) : List Char :=
  pyStrip (stripCurrency (pyStrip s.data))

/-- Pattern cascade of `_extract_price_from_text` on the normalized text, in
source order: European grouped thousands (`(\d{1,3}(?:\.\d{3})*),(\d{2})`),
American grouped thousands (`(\d{1,3}(?:,\d{3})*)\.(\d{2})`), bare comma
decimal, bare dot decimal, integer only; the first matching pattern wins.  The
`float(...)` conversions cannot raise on all-digit groups, so the `except`
arms are dead. -/
def priceFromNormalized (t : List Char) : Option ℚ :=
  match searchGrouped '.' ',' t with
  | some (g1, g2) => some (ratOfParts (g1.filter (fun c => c != '.')) g2)
  | none =>
    match searchGrouped ',' '.' t with
    | some (g1, g2) => some (ratOfParts (g1.filter (fun c => c != ',')) g2)
    | none =>
      match searchSimple ',' t with
      | some (g1, g2) => some (ratOfParts g1 g2)
      | none =>
        match searchSimple '.' t with
        | some (g1, g2) => some (ratOfParts g1 g2)
        | none =>
          match searchInt t with
          | some d => some ((digitsToNat d : ℚ))
          | none => none

/-- `AmazonScraper._extract_price_from_text`: `None` for falsy input, else
normalize and run the pattern cascade. -/
def extractPriceFromText (s : String) : Option ℚ :=
  if s = "" then none else priceFromNormalized (normalizeText s)

/-- ASCII lowercase test via code points (`97..122` is `a..z`). -/
def isLowerAscii (c : Char) : Bool := 97 ≤ c.toNat && c.toNat ≤ 122

/-- ASCII uppercasing of one character (model of `str.upper()`). -/
def upperChar (c : Char) : Char :=
  if 97 ≤ c.toNat && c.toNat ≤ 122 then Char.ofNat (c.toNat - 32) else c

/-- ASCII lowercasing of one character (model of `str.lower()`). -/
def lowerChar (c : Char) : Char :=
  if 65 ≤ c.toNat && c.toNat ≤ 90 then Char.ofNat (c.toNat + 32) else c

/-- ASCII alphanumeric test (model of the `str.isalnum()` fragment reachable
here). -/
def isAlnumAscii (c : Char) : Bool :=
  (65 ≤ c.toNat && c.toNat ≤ 90) || (97 ≤ c.toNat && c.toNat ≤ 122)
    || (48 ≤ c.toNat && c.toNat ≤ 57)

/-- Uppercase letter or digit (the character class `[0-9A-Z]`). -/
def isUpperAlnum (c : Char) : Bool :=
  (65 ≤ c.toNat && c.toNat ≤ 90) || (48 ≤ c.toNat && c.toNat ≤ 57)

/-- Word character for `\b` boundaries: `[A-Za-z0-9_]`. -/
def isWordChar (c : Char) : Bool := isAlnumAscii c || c = '_'

/-- `str.upper()` over a whole string. -/
def upperStr (s : String) : String := ⟨s.data.map upperChar⟩

/-- `is_valid_asin` from `parser.py`: non-empty, exactly ten characters, all
alphanumeric. -/
def isValidAsin (a : String) : Bool :=
  if a = "" then false
  else if a.length ≠ 10 then false
  else if !(a.data.all isAlnumAscii) then false
  else true

/-- The repeated return idiom `asin = cand.upper(); if is_valid_asin(asin):
return asin` — uppercase the candidate and keep it only if valid. -/
def checkCandidate (s : String) : Option String :=
  let a := upperStr s
  if isValidAsin a then some a else none

/-- Case-insensitive literal match at the head of `s`; returns the remainder. -/
def litMatches (lit : List Char) (s : List Char) : Option (List Char) :=
  match lit, s with
  | [], rest => some rest
  | _ :: _, [] => none
  | l :: ls, c :: cs => if lowerChar c = lowerChar l then litMatches ls cs else none

/-- Take exactly `k` characters satisfying `p` from the head of `s`. -/
def takeClass (p : Char → Bool) : Nat → List Char → Option (List Char × List Char)
  | 0, rest => some ([], rest)
  | _ + 1, [] => none
  | k + 1, c :: cs =>
    if p c then
      match takeClass p k cs with
      | some (d, rest) => some (c :: d, rest)
      | none => none
    else none

/-- `re.search(<literal>([A-Z0-9]{10}), url, re.IGNORECASE)`: leftmost position
where the literal matches case-insensitively and ten alphanumerics follow;
returns group 1. -/
def searchLitAsin (lit : List Char) : List Char → Option String
  | [] => none
  | c :: cs =>
    match litMatches lit (c :: cs) with
    | some rest =>
      match takeClass isAlnumAscii 10 rest with
      | some (d, _) => some ⟨d⟩
      | none => searchLitAsin lit cs
    | none => searchLitAsin lit cs

/-- Truncate at the first occurrence of `sep` (exclusive). -/
def takeUntilChar (sep : Char) (s : List Char) : List Char :=
  s.takeWhile (fun c => c != sep)

/-- Drop up to and including the first occurrence of `sep`; `none` if absent. -/
def dropThroughChar (sep : Char) (s : List Char) : Option (List Char) :=
  match s.dropWhile (fun c => c != sep) with
  | [] => none
  | _ :: rest => some rest

/-- Query component as by `urllib.parse.urlparse`: the part after the first
`?` and before any following `#` (empty when there is no `?`). -/
def urlQuery (s : List Char) : List Char :=
  match dropThroughChar '?' (takeUntilChar '#' s) with
  | some q => q
  | none => []

/-- Hexadecimal digit value. -/
def hexVal (c : Char) : Option Nat :=
  if 48 ≤ c.toNat && c.toNat ≤ 57 then some (c.toNat - 48)
  else if 97 ≤ c.toNat && c.toNat ≤ 102 then some (c.toNat - 87)
  else if 65 ≤ c.toNat && c.toNat ≤ 70 then some (c.toNat - 55)
  else none

/-- `urllib.parse.unquote_plus` on the byte level: `+` becomes a space and
`%hh` escapes are decoded (invalid escapes are kept literally; multi-byte
UTF-8 recombination is not modelled — it cannot produce ASCII alphanumerics
and so does not affect validated candidates). -/
def unquotePlus : List Char → List Char
  | [] => []
  | '+' :: cs => ' ' :: unquotePlus cs
  | '%' :: h1 :: h2 :: cs =>
    match hexVal h1, hexVal h2 with
    | some a, some b => Char.ofNat (16 * a + b) :: unquotePlus cs
    | _, _ => '%' :: unquotePlus (h1 :: h2 :: cs)
  | c :: cs => c :: unquotePlus cs

/-- Split a query field at its first `=`; `none` when there is no `=`. -/
def splitFirstEq (field : List Char) : Option (List Char × List Char) :=
  match field.dropWhile (fun c => c != '=') with
  | [] => none
  | _ :: rest => some (field.takeWhile (fun c => c != '='), rest)

/-- `urllib.parse.parse_qs` as an ordered association list: split on `&`,
split each field at the first `=`, skip fields without `=` and fields with a
blank raw value (`keep_blank_values=False`), and unquote keys and values. -/
def parseQs (q : List Char) : List (String × String) :=
  (q.splitOn '&').filterMap (fun field =>
    match splitFirstEq field with
    | none => none
    | some (k, v) =>
      if v = [] then none
      else some (⟨unquotePlus k⟩, ⟨unquotePlus v⟩))

/-- First value listed for `key` (`query_params[key][0]`). -/
def qsFirst (qs : List (String × String)) (key : String) : Option String :=
  match qs.find? (fun kv => kv.1 == key) with
  | some kv => some kv.2
  | none => none

/-- Contiguous-substring test (`needle in haystack`). -/
def containsSub (needle : List Char) : List Char → Bool
  | [] => decide (needle = [])
  | c :: cs => List.isPrefixOf needle (c :: cs) || containsSub needle cs

/-- Match `\b(B[0-9A-Z]{9})\b` at the head of `s`, given whether the character
just before `s` is a word character. -/
def matchBAsinAt (prevIsWord : Bool) (s : List Char) : Option (List Char) :=
  if prevIsWord then none
  else
    match s with
    | c0 :: cs =>
      if c0 = 'B' then
        match takeClass isUpperAlnum 9 cs with
        | some (d, rest) =>
          match rest with
          | [] => some (c0 :: d)
          | c :: _ => if isWordChar c then none else some (c0 :: d)
        | none => none
      else none
    | [] => none

/-- Leftmost match of `\b(B[0-9A-Z]{9})\b`, threading the word-boundary
context. -/
def searchBAsinAux (prevIsWord : Bool) : List Char → Option (List Char)
  | [] => none
  | c :: cs =>
    match matchBAsinAt prevIsWord (c :: cs) with
    | some r => some r
    | none => searchBAsinAux (isWordChar c) cs

/-- `re.search(r'\b([B][0-9A-Z]{9})\b', url.upper())`. -/
def searchBAsin (s : List Char) : Option String :=
  (searchBAsinAux false s).map (fun d => (⟨d⟩ : String))

/-- One iteration of the path-pattern loop of `extract_asin_from_url`: search
the pattern, then uppercase and validate the captured group. -/
def tryPathPattern (lit : String) (u : List Char) : Option String :=
  match searchLitAsin lit.data u with
  | some cand => checkCandidate cand
  | none => none

/-- Path-pattern loop over `/dp/`, `/gp/product/`, `/product/` (an invalid
candidate falls through to the next pattern). -/
def matchPathPatterns (u : List Char) : Option String :=
  (tryPathPattern "/dp/" u).orElse fun _ =>
    (tryPathPattern "/gp/product/" u).orElse fun _ =>
      tryPathPattern "/product/" u

/-- Query-parameter block: the `asin` key, then the `pd_rd_i` key, each
uppercased and validated, invalid candidates falling through. -/
def matchQueryParams (u : List Char) : Option String :=
  (match qsFirst (parseQs (urlQuery u)) "asin" with
   | some v => checkCandidate v
   | none => none).orElse fun _ =>
    match qsFirst (parseQs (urlQuery u)) "pd_rd_i" with
    | some v => checkCandidate v
    | none => none

/-- Fallback block: only when the lowered URL mentions `amazon` or `amzn`,
search the uppercased URL for `\b(B[0-9A-Z]{9})\b` and validate the hit (the
captured group is already uppercase and is returned without `.upper()`). -/
def matchFallback (u : List Char) : Option String :=
  if containsSub "amazon".data (u.map lowerChar)
      || containsSub "amzn".data (u.map lowerChar) then
    match searchBAsin (u.map upperChar) with
    | some cand => if isValidAsin cand then some cand else none
    | none => none
  else none

/-- `extract_asin_from_url` from `parser.py`: falsy input yields `None`; the
stripped URL is tried against the path patterns, then the query parameters,
then the guarded fallback pattern. -/
def extractAsinFromUrl (url : String) : Option String :=
  if url = "" then none
  else
    (matchPathPatterns (pyStrip url.data)).orElse fun _ =>
      (matchQueryParams (pyStrip url.data)).orElse fun _ =>
        matchFallback (pyStrip url.data)

/-- Dummy HMAC primitive for instantiating the abstract signing procedure. -/
def dummyHmac (k m : String) : String := k ++ ":" ++ m

/-- Dummy hex-encoding primitive. -/
def dummyHex (s : String) : String := s ++ "#"

/-- Dummy SHA-256 hex digest primitive. -/
def dummySha (s : String) : String := "h(" ++ s ++ ")"

/-- A client configuration. -/
def clientA : APIClient :=
  ⟨"AKIA", "SECRET", "tag-a", "IT", "webservices.amazon.it", "APJ6JRA9NG5V4", 0⟩

/-- A second client agreeing with `clientA` on the signing inputs only. -/
def clientB : APIClient :=
  ⟨"AKIA", "SECRET", "tag-b", "IT", "webservices.amazon.it", "OTHERMKT", 42⟩

/-- Reduction of the normalizer to the pattern cascade on non-empty input. -/
theorem extract_eval (s : String) (h : ¬s = "") :
    extractPriceFromText s = priceFromNormalized (normalizeText s) := by
  simp [extractPriceFromText, h]

/-- Cascade outcome when the European pattern matches. -/
theorem pfn_eur (t g1 g2 : List Char) (h : searchGrouped '.' ',' t = some (g1, g2)) :
    priceFromNormalized t = some (ratOfParts (g1.filter (fun c => c != '.')) g2) := by
  simp only [priceFromNormalized, h]

/-- Cascade outcome when only the American pattern matches. -/
theorem pfn_amer (t g1 g2 : List Char) (h1 : searchGrouped '.' ',' t = none)
    (h2 : searchGrouped ',' '.' t = some (g1, g2)) :
    priceFromNormalized t = some (ratOfParts (g1.filter (fun c => c != ',')) g2) := by
  simp only [priceFromNormalized, h1, h2]

/-- Cascade outcome when the first match is the bare comma-decimal pattern. -/
theorem pfn_comma (t g1 g2 : List Char) (h1 : searchGrouped '.' ',' t = none)
    (h2 : searchGrouped ',' '.' t = none) (h3 : searchSimple ',' t = some (g1, g2)) :
    priceFromNormalized t = some (ratOfParts g1 g2) := by
  simp only [priceFromNormalized, h1, h2, h3]

/-- Cascade outcome when the first match is the bare dot-decimal pattern. -/
theorem pfn_dot (t g1 g2 : List Char) (h1 : searchGrouped '.' ',' t = none)
    (h2 : searchGrouped ',' '.' t = none) (h3 : searchSimple ',' t = none)
    (h4 : searchSimple '.' t = some (g1, g2)) :
    priceFromNormalized t = some (ratOfParts g1 g2) := by
  simp only [priceFromNormalized, h1, h2, h3, h4]

/-- Cascade outcome when only the integer pattern matches. -/
theorem pfn_int (t d : List Char) (h1 : searchGrouped '.' ',' t = none)
    (h2 : searchGrouped ',' '.' t = none) (h3 : searchSimple ',' t = none)
    (h4 : searchSimple '.' t = none) (h5 : searchInt t = some d) :
    priceFromNormalized t = some ((digitsToNat d : ℚ)) := by
  simp only [priceFromNormalized, h1, h2, h3, h4, h5]

/-- Evaluation of `ratOfParts` on concrete digit strings. -/
theorem ratOfParts_eval (w d : List Char) (a b : Nat) (hw : digitsToNat w = a)
    (hd : digitsToNat d = b) : ratOfParts w d = (a : ℚ) + (b : ℚ) / 100 := by
  rw [ratOfParts, hw, hd]

/-- C2: behaviour of the price-text normalizer on the five spec vectors.  Four
agree with the claim; on `"1,299.99"` the code returns `1.29`, not `1299.99`:
the European pattern `(\d{1,3}(?:\.\d{3})*),(\d{2})` is tried first and matches
the substring `1,29`, although the code's own comment names `1,299.99` as the
American-format example.  The last conjunct records the divergence. -/
theorem C2_parser_vectors :
    extractPriceFromText "€29,99" = some (2999 / 100)
      ∧ extractPriceFromText "1.299,99" = some (129999 / 100)
      ∧ extractPriceFromText "29.99" = some (2999 / 100)
      ∧ extractPriceFromText "29" = some 29
      ∧ extractPriceFromText "1,299.99" = some (129 / 100)
      ∧ (129 : ℚ) / 100 ≠ 129999 / 100 := by
  refine ⟨?_, ?_, ?_, ?_, ?_, by norm_num⟩
  · rw [extract_eval _ (by decide), show normalizeText "€29,99" = "29,99".data from by decide,
      pfn_eur _ "29".data "99".data (by decide),
      ratOfParts_eval _ _ 29 99 (by decide) (by decide)]
    norm_num
  · rw [extract_eval _ (by decide),
      show normalizeText "1.299,99" = "1.299,99".data from by decide,
      pfn_eur _ "1.299".data "99".data (by decide),
      ratOfParts_eval _ _ 1299 99 (by decide) (by decide)]
    norm_num
  · rw [extract_eval _ (by decide), show normalizeText "29.99" = "29.99".data from by decide,
      pfn_amer _ "29".data "99".data (by decide) (by decide),
      ratOfParts_eval _ _ 29 99 (by decide) (by decide)]
    norm_num
  · rw [extract_eval _ (by decide), show normalizeText "29" = "29".data from by decide,
      pfn_int _ "29".data (by decide) (by decide) (by decide) (by decide) (by decide)]
    norm_num [show digitsToNat "29".data = 29 from by decide]
  · rw [extract_eval _ (by decide),
      show normalizeText "1,299.99" = "1,299.99".data from by decide,
      pfn_eur _ "1".data "29".data (by decide),
      ratOfParts_eval _ _ 1 29 (by decide) (by decide)]
    norm_num

/-- C3: the rotation loop with population 7, budget 10 and cursor 0 visits
items 0..6, wraps to 0, 1, 2 and leaves the cursor at 3; each tier's per-run
budget is the population size capped at the period length divided by the 0.1 s
per-item pacing delay (600 for the one-minute tier, 9000 for the
fifteen-minute tier). -/
theorem C3_rotation_budget :
    rotationRun 7 10 0 = ([0, 1, 2, 3, 4, 5, 6, 0, 1, 2], 3)
      ∧ (∀ n, vipProductsToCheck n = min n maxProductsPerMinute)
      ∧ (∀ n, regularProductsToCheck n = min n maxProductsPerCycle)
      ∧ (maxProductsPerMinute : ℚ) = 60 / (1 / 10)
      ∧ (maxProductsPerCycle : ℚ) = 15 * 60 / (1 / 10) := by
  refine ⟨by decide, fun n => rfl, fun n => rfl, ?_, ?_⟩
  · norm_num [maxProductsPerMinute]
  · norm_num [maxProductsPerCycle]

/-- C4 counterexample: a stored `initial_price` of `0` is falsy for
`if not product.initial_price`, so a later check overwrites it — here from
`some 0` to `some 50` — refuting the claim that a non-null `initial_price` is
never overwritten "including when the stored initial_price is 0". -/
theorem C4_counterexample :
    (checkSingleProduct ⟨⟨"B00ZEROINI", none, none, some 0, none⟩, [⟨10, "EUR", 0⟩]⟩
        (some (mkSnapshot 50)) 1).state.product.initialPrice = some 50
      ∧ some (50 : ℚ) ≠ some (0 : ℚ) := by
  decide

/-- C4 (amended): once `initial_price` is non-null and nonzero, no later check
overwrites it, whatever the fetch outcome. -/
theorem C4_initialPrice_immutable (st : ItemState) (fetch : Option Snapshot) (now : ℤ)
    (p : ℚ) (h : st.product.initialPrice = some p) (hp : p ≠ 0) :
    (checkSingleProduct st fetch now).state.product.initialPrice = some p := by
  cases fetch with
  | none => simpa [checkSingleProduct] using h
  | some info =>
    cases hp2 : info.price with
    | none => simp [checkSingleProduct, hp2, h]
    | some cur => simp [checkSingleProduct, hp2, h, truthyQ, hp]

/-- C4 witness: the immutability theorem applied at a concrete item with
`initial_price = 80`. -/
theorem C4_witness :
    (⟨⟨"B00IMMUT", none, none, some 80, none⟩, [⟨90, "EUR", 0⟩]⟩ : ItemState).product.initialPrice
        = some 80
      ∧ (checkSingleProduct ⟨⟨"B00IMMUT", none, none, some 80, none⟩, [⟨90, "EUR", 0⟩]⟩
          (some (mkSnapshot 70)) 1).state.product.initialPrice = some 80 :=
  ⟨rfl, C4_initialPrice_immutable _ _ _ 80 rfl (by norm_num)⟩

/-- C5: a check whose fetch failed (`None` result: not found, rate limited,
blocked, network error) or yielded no price leaves the item's stored state —
history rows, `initial_price`, `target_price`, title and URL — exactly as it
was, and raises no notification; the unchanged state keeps the item in its
tier's population for the next scheduled run. -/
theorem C5_failed_fetch_leaves_state (st : ItemState) (fetch : Option Snapshot) (now : ℤ)
    (h : fetch = none ∨ ∃ snap, fetch = some snap ∧ snap.price = none) :
    (checkSingleProduct st fetch now).state = st
      ∧ (checkSingleProduct st fetch now).notified = false := by
  rcases h with rfl | ⟨snap, rfl, hp⟩
  · exact ⟨rfl, rfl⟩
  · simp [checkSingleProduct, hp]

/-- C5 witness: a priceless snapshot for a concrete item changes nothing. -/
theorem C5_witness :
    (checkSingleProduct ⟨⟨"B00KEEP", some "Kept", none, some 12, some 9⟩, [⟨15, "EUR", 3⟩]⟩
        (some ⟨some "New title", none, some "USD", some "u"⟩) 7).state
        = ⟨⟨"B00KEEP", some "Kept", none, some 12, some 9⟩, [⟨15, "EUR", 3⟩]⟩
      ∧ (checkSingleProduct ⟨⟨"B00KEEP", some "Kept", none, some 12, some 9⟩, [⟨15, "EUR", 3⟩]⟩
          (some ⟨some "New title", none, some "USD", some "u"⟩) 7).notified = false :=
  C5_failed_fetch_leaves_state _ _ _ (Or.inr ⟨_, rfl, rfl⟩)

/-- C7 counterexample: the locale-ambiguous string `1.234` is not treated as
thousands grouping (value `1234`); the American pattern matches with the dot
as decimal separator and the normalizer returns `1.23`. -/
theorem C7_counterexample :
    extractPriceFromText "1.234" = some (123 / 100) ∧ (123 : ℚ) / 100 ≠ 1234 := by
  refine ⟨?_, by norm_num⟩
  rw [extract_eval _ (by decide), show normalizeText "1.234" = "1.234".data from by decide,
    pfn_amer _ "1".data "23".data (by decide) (by decide),
    ratOfParts_eval _ _ 1 23 (by decide) (by decide)]
  norm_num

/-- C9: request signing is deterministic and depends only on the secret key,
access key, region, endpoint, method, path, payload and timestamp: two clients
agreeing on those fields (but possibly differing in associate tag, marketplace
or throttle state) produce the identical Authorization header and signature,
for any choice of the hash primitives. -/
theorem C9_signing_deterministic (hmacDigest : String → String → String)
    (hexOf sha256Hex : String → String) (c1 c2 : APIClient)
    (method uri payload timestamp : String)
    (hS : c1.secretKey = c2.secretKey) (hA : c1.accessKey = c2.accessKey)
    (hR : c1.region = c2.region) (hE : c1.endpoint = c2.endpoint) :
    signRequest hmacDigest hexOf sha256Hex c1 method uri payload timestamp
      = signRequest hmacDigest hexOf sha256Hex c2 method uri payload timestamp := by
  simp only [signRequest, hS, hA, hR, hE]

/-- C9 witness: two clients differing in associate tag, marketplace and
throttle state but agreeing on the signing inputs produce the same header. -/
theorem C9_witness :
    clientA.secretKey = clientB.secretKey ∧ clientA.accessKey = clientB.accessKey
      ∧ clientA.region = clientB.region ∧ clientA.endpoint = clientB.endpoint
      ∧ clientA.associateTag ≠ clientB.associateTag
      ∧ signRequest dummyHmac dummyHex dummySha clientA "POST" "/paapi5/getitems" "x"
          "20240101T000000Z"
        = signRequest dummyHmac dummyHex dummySha clientB "POST" "/paapi5/getitems" "x"
          "20240101T000000Z" :=
  ⟨rfl, rfl, rfl, rfl, by decide,
    C9_signing_deterministic dummyHmac dummyHex dummySha clientA clientB _ _ _ _
      rfl rfl rfl rfl⟩

/-- Reduced form of a successful check: each component of the result spelled
out from the body of `checkSingleProduct`. -/
theorem checkSingleProduct_success (st : ItemState) (snap : Snapshot) (cur : ℚ) (now : ℤ)
    (hp : snap.price = some cur) :
    checkSingleProduct st (some snap) now =
      ⟨⟨⟨st.product.asin,
          (if truthyS snap.title && !truthyS st.product.title then snap.title
            else st.product.title),
          (if truthyS snap.url && !truthyS st.product.url then snap.url else st.product.url),
          (if truthyQ st.product.initialPrice then st.product.initialPrice else some cur),
          st.product.targetPrice⟩,
        historyAfter st.history cur (snap.currency.getD "EUR") now⟩,
        (dropDecision ((latestRow st.history).map (fun r => r.price)) cur
          st.product.targetPrice
          (if truthyQ st.product.initialPrice then st.product.initialPrice else some cur)).1,
        (dropDecision ((latestRow st.history).map (fun r => r.price)) cur
          st.product.targetPrice
          (if truthyQ st.product.initialPrice then st.product.initialPrice else some cur)).2,
        (if (dropDecision ((latestRow st.history).map (fun r => r.price)) cur
              st.product.targetPrice
              (if truthyQ st.product.initialPrice then st.product.initialPrice
                else some cur)).1 then
          computeStats (historyAfter st.history cur (snap.currency.getD "EUR") now) cur now
        else emptyStats)⟩ := by
  simp only [checkSingleProduct, hp]

/-- A truthy optional threshold is strictly above a positive current price
exactly when some stored threshold is (Python truthiness cannot drop a
positive price below a zero threshold). -/
theorem belowTruthy_iff_pos (o : Option ℚ) (cur : ℚ) (hc : 0 < cur) :
    belowTruthy o cur = true ↔ ∃ t, o = some t ∧ cur < t := by
  cases o with
  | none => simp [belowTruthy]
  | some x =>
    simp only [belowTruthy, Bool.and_eq_true, bne_iff_ne, ne_eq, decide_eq_true_eq,
      Option.some.injEq]
    constructor
    · rintro ⟨_, h⟩; exact ⟨x, rfl, h⟩
    · rintro ⟨t, rfl, hlt⟩
      exact ⟨(hc.trans hlt).ne', hlt⟩

/-- Backfilled initial price (`if not product.initial_price: ... = current`)
is strictly above a positive current price exactly when the stored initial
price is: a just-backfilled initial equals the current price and a zero
initial is falsy. -/
theorem belowTruthy_initialAfter (o : Option ℚ) (cur : ℚ) (hc : 0 < cur) :
    belowTruthy (if truthyQ o then o else some cur) cur = true
      ↔ ∃ i, o = some i ∧ cur < i := by
  cases o with
  | none => simp [truthyQ, belowTruthy, lt_irrefl]
  | some x =>
    by_cases hx : x = 0
    · subst hx
      simp [truthyQ, belowTruthy, lt_irrefl, hc.asymm]
    · have h1 : truthyQ (some x) = true := by simp [truthyQ, hx]
      rw [h1, if_pos rfl]
      exact belowTruthy_iff_pos _ _ hc

/-- C1: for an item with a prior observation (at a positive price, fetched at
a positive price), a check is notifiable exactly when the current price is
strictly below the previous observed price and additionally strictly below the
stored target price or strictly below the stored initial price.  On the
sequence 100, 90, 95, 80 with no target and initial 100 the checks notify at
90 and 80 only; a dip from 110 to 105 above the initial 100 updates the stored
observation to 105 without notifying. -/
theorem C1_drop_detector :
    (∀ (st : ItemState) (r : HistoryRow) (snap : Snapshot) (cur : ℚ) (now : ℤ),
        latestRow st.history = some r → 0 < r.price → snap.price = some cur → 0 < cur →
        ((checkSingleProduct st (some snap) now).notified = true ↔
          cur < r.price
            ∧ ((∃ t, st.product.targetPrice = some t ∧ cur < t)
                ∨ (∃ i, st.product.initialPrice = some i ∧ cur < i))))
      ∧ (runPrices ⟨⟨"B00SEQ", none, none, some 100, none⟩, []⟩ 0 [100, 90, 95, 80]).2
          = [false, true, false, true]
      ∧ (checkSingleProduct ⟨⟨"B00DIP", none, none, some 100, none⟩, [⟨110, "EUR", 0⟩]⟩
            (some (mkSnapshot 105)) 5).notified = false
      ∧ latestRow (checkSingleProduct ⟨⟨"B00DIP", none, none, some 100, none⟩,
            [⟨110, "EUR", 0⟩]⟩ (some (mkSnapshot 105)) 5).state.history
          = some ⟨105, "EUR", 5⟩ := by
  refine ⟨?_, by decide, by decide, by decide⟩
  intro st r snap cur now hlr hr hp hc
  rw [checkSingleProduct_success st snap cur now hp]
  dsimp only
  rw [hlr]
  simp only [Option.map_some']
  rw [dropDecision]
  have htr : truthyQ (some r.price) = true := by simp [truthyQ, hr.ne']
  rw [htr]
  simp only [if_pos rfl, Option.getD_some]
  by_cases hlt : cur < r.price
  · simp only [if_pos hlt, hlt, true_and]
    rw [← belowTruthy_iff_pos st.product.targetPrice cur hc,
      ← belowTruthy_initialAfter st.product.initialPrice cur hc, ← Bool.or_eq_true]
    by_cases hC : (belowTruthy st.product.targetPrice cur
        || belowTruthy (if truthyQ st.product.initialPrice then st.product.initialPrice
            else some cur) cur) = true
    · simp [hC]
    · simp [hC]
  · simp [if_neg hlt, hlt]

/-- C1 witness: the drop-detector characterization applied to a concrete item
with previous price 110, initial 100, no target, fetched at 95. -/
theorem C1_witness :
    latestRow ([⟨110, "EUR", 0⟩] : List HistoryRow) = some ⟨110, "EUR", 0⟩
      ∧ (0 : ℚ) < 110 ∧ (0 : ℚ) < 95
      ∧ ((checkSingleProduct ⟨⟨"B00WIT1", none, none, some 100, none⟩, [⟨110, "EUR", 0⟩]⟩
            (some (mkSnapshot 95)) 1).notified = true ↔
          (95 : ℚ) < 110
            ∧ ((∃ t, (none : Option ℚ) = some t ∧ (95 : ℚ) < t)
                ∨ (∃ i, (some (100 : ℚ) : Option ℚ) = some i ∧ (95 : ℚ) < i))) :=
  ⟨by decide, by decide, by decide,
    C1_drop_detector.1 ⟨⟨"B00WIT1", none, none, some 100, none⟩, [⟨110, "EUR", 0⟩]⟩
      ⟨110, "EUR", 0⟩ (mkSnapshot 95) 95 1 (by decide) (by decide) rfl (by decide)⟩

/-- C6: a first successful fetch (no prior observation) inserts the fetched
price as the current observation, backfills an unset `initial_price` with it,
and notifies exactly when a stored target price strictly exceeds the fetched
price — never by comparison with the just-set initial price.  Concretely:
target 50 and first fetch 45 notifies; first fetch 60 with no target does not
notify and sets `initial_price` to 60. -/
theorem C6_first_check :
    (∀ (st : ItemState) (snap : Snapshot) (cur : ℚ) (now : ℤ),
        st.history = [] → snap.price = some cur → 0 < cur →
        ((checkSingleProduct st (some snap) now).state.history
            = [⟨cur, snap.currency.getD "EUR", now⟩]
          ∧ (st.product.initialPrice = none →
              (checkSingleProduct st (some snap) now).state.product.initialPrice = some cur)
          ∧ ((checkSingleProduct st (some snap) now).notified = true ↔
              ∃ t, st.product.targetPrice = some t ∧ cur < t)))
      ∧ (checkSingleProduct ⟨⟨"B00FST", none, none, none, some 50⟩, []⟩
          (some (mkSnapshot 45)) 0).notified = true
      ∧ (checkSingleProduct ⟨⟨"B00FSN", none, none, none, none⟩, []⟩
          (some (mkSnapshot 60)) 0).notified = false
      ∧ (checkSingleProduct ⟨⟨"B00FSN", none, none, none, none⟩, []⟩
          (some (mkSnapshot 60)) 0).state.product.initialPrice = some 60 := by
  refine ⟨?_, by decide, by decide, by decide⟩
  intro st snap cur now hh hp hc
  rw [checkSingleProduct_success st snap cur now hp, hh]
  refine ⟨by simp [historyAfter, latestRow], ?_, ?_⟩
  · intro hi
    rw [hi]
    simp [truthyQ]
  · simp only [latestRow, Option.map_none']
    rw [dropDecision]
    simp only [truthyQ, Bool.false_eq_true, if_false]
    rw [← belowTruthy_iff_pos st.product.targetPrice cur hc]
    by_cases hC : belowTruthy st.product.targetPrice cur = true
    · simp [hC]
    · simp [hC]

/-- C6 witness: the first-check policy applied to a concrete item with target
50 and first fetch 45. -/
theorem C6_witness :
    (checkSingleProduct ⟨⟨"B00FWIT", none, none, none, some 50⟩, []⟩
          (some (mkSnapshot 45)) 0).state.history = [⟨45, "EUR", 0⟩]
      ∧ ((none : Option ℚ) = none →
          (checkSingleProduct ⟨⟨"B00FWIT", none, none, none, some 50⟩, []⟩
            (some (mkSnapshot 45)) 0).state.product.initialPrice = some 45)
      ∧ ((checkSingleProduct ⟨⟨"B00FWIT", none, none, none, some 50⟩, []⟩
            (some (mkSnapshot 45)) 0).notified = true ↔
          ∃ t, (some (50 : ℚ) : Option ℚ) = some t ∧ (45 : ℚ) < t) :=
  C6_first_check.1 ⟨⟨"B00FWIT", none, none, none, some 50⟩, []⟩ (mkSnapshot 45) 45 0
    rfl rfl (by decide)

/-- C7 (amended): the normalizer tries the patterns in the fixed source order
— European grouped thousands, American grouped thousands, bare comma-decimal,
bare dot-decimal, integer-only — with the first match winning; under this
policy the locale-ambiguous string `1.234` is matched by the American pattern
with the dot as decimal separator and parses as `1.23`, not as thousands
grouping `1234`. -/
theorem C7_pattern_order :
    (∀ t g1 g2, searchGrouped '.' ',' t = some (g1, g2) →
        priceFromNormalized t = some (ratOfParts (g1.filter (fun c => c != '.')) g2))
      ∧ (∀ t g1 g2, searchGrouped '.' ',' t = none →
          searchGrouped ',' '.' t = some (g1, g2) →
          priceFromNormalized t = some (ratOfParts (g1.filter (fun c => c != ',')) g2))
      ∧ (∀ t g1 g2, searchGrouped '.' ',' t = none → searchGrouped ',' '.' t = none →
          searchSimple ',' t = some (g1, g2) →
          priceFromNormalized t = some (ratOfParts g1 g2))
      ∧ (∀ t g1 g2, searchGrouped '.' ',' t = none → searchGrouped ',' '.' t = none →
          searchSimple ',' t = none → searchSimple '.' t = some (g1, g2) →
          priceFromNormalized t = some (ratOfParts g1 g2))
      ∧ (∀ t d, searchGrouped '.' ',' t = none → searchGrouped ',' '.' t = none →
          searchSimple ',' t = none → searchSimple '.' t = none → searchInt t = some d →
          priceFromNormalized t = some ((digitsToNat d : ℚ)))
      ∧ extractPriceFromText "1.234" = some (123 / 100) := by
  refine ⟨pfn_eur, pfn_amer, pfn_comma, pfn_dot, pfn_int, ?_⟩
  rw [extract_eval _ (by decide), show normalizeText "1.234" = "1.234".data from by decide,
    pfn_amer _ "1".data "23".data (by decide) (by decide),
    ratOfParts_eval _ _ 1 23 (by decide) (by decide)]
  norm_num

/-- C7 witness: the first-pattern rule applied to the normalized text
`29,99`, matched by the European pattern. -/
theorem C7_witness :
    searchGrouped '.' ',' "29,99".data = some ("29".data, "99".data)
      ∧ priceFromNormalized "29,99".data
          = some (ratOfParts ("29".data.filter (fun c => c != '.')) "99".data) :=
  ⟨by decide, C7_pattern_order.1 "29,99".data "29".data "99".data (by decide)⟩

/-- A left fold by `max` over timestamps returns its seed or an attained
timestamp. -/
theorem foldl_max_attained (l : List HistoryRow) (a : ℤ) :
    l.foldl (fun acc x => max acc x.checkedAt) a = a
      ∨ ∃ x ∈ l, l.foldl (fun acc x => max acc x.checkedAt) a = x.checkedAt := by
  induction l generalizing a with
  | nil => exact Or.inl rfl
  | cons x xs ih =>
    rcases ih (max a x.checkedAt) with h | ⟨y, hy, h⟩
    · rcases max_choice a x.checkedAt with hm | hm
      · exact Or.inl (by rw [List.foldl_cons, h, hm])
      · exact Or.inr ⟨x, by simp, by rw [List.foldl_cons, h, hm]⟩
    · exact Or.inr ⟨y, by simp [hy], by rw [List.foldl_cons]; exact h⟩

/-- If some row carries timestamp `m`, the replacement row is present after
`replaceFirstAt`. -/
theorem mem_replaceFirstAt (m : ℤ) (new : HistoryRow) (l : List HistoryRow)
    (hm : ∃ r ∈ l, r.checkedAt = m) : new ∈ replaceFirstAt m new l := by
  induction l with
  | nil => simp at hm
  | cons r rs ih =>
    rw [replaceFirstAt]
    by_cases h : r.checkedAt = m
    · simp [h]
    · rw [if_neg h]
      rcases hm with ⟨x, hx, hxm⟩
      rcases List.mem_cons.mp hx with rfl | hx2
      · exact absurd hxm h
      · exact List.mem_cons_of_mem _ (ih ⟨x, hx2, hxm⟩)

/-- The freshly written row is present after the in-place update. -/
theorem mem_updateLatest (h : List HistoryRow) (p : ℚ) (c : String) (t : ℤ) (hne : h ≠ []) :
    (⟨p, c, t⟩ : HistoryRow) ∈ updateLatest h p c t := by
  cases h with
  | nil => exact absurd rfl hne
  | cons r rs =>
    rw [updateLatest]
    apply mem_replaceFirstAt
    rcases foldl_max_attained rs r.checkedAt with hh | ⟨x, hx, hh⟩
    · exact ⟨r, by simp, by rw [maxCheckedAt]; exact hh.symm⟩
    · exact ⟨x, by simp [hx], by rw [maxCheckedAt]; exact hh.symm⟩

/-- The row written by a successful check is present in the updated history. -/
theorem mem_historyAfter (h : List HistoryRow) (p : ℚ) (c : String) (t : ℤ) :
    (⟨p, c, t⟩ : HistoryRow) ∈ historyAfter h p c t := by
  rw [historyAfter]
  split
  · rename_i r heq
    have hne : h ≠ [] := by
      intro hnil
      rw [hnil] at heq
      simp [latestRow] at heq
    exact mem_updateLatest _ _ _ _ hne
  · simp

/-- A non-empty history has a minimum price. -/
theorem histMin_isSome (l : List HistoryRow) (hne : l ≠ []) : ∃ m, histMin l = some m := by
  cases l with
  | nil => exact absurd rfl hne
  | cons r rs =>
    exact ⟨rs.foldl (fun (a : ℚ) (x : HistoryRow) => min a x.price) r.price, rfl⟩

/-- C8 (amended): on a successful check, rolling statistics are computed only
when a notifiable drop was found; the drop is flagged historical-minimum
exactly when the current price is at most the all-time minimum of the stored
history; the below-average percentage is recorded exactly when the trailing
180-day mean is nonzero and the current price is strictly below it — the
detector applies no threshold (a 10 percent threshold exists only in the
presentation layer); and the days-since-minimum figure is computed only when
the current price is not itself the historical minimum. -/
theorem C8_stats (st : ItemState) (snap : Snapshot) (cur : ℚ) (now : ℤ)
    (hp : snap.price = some cur) :
    ((checkSingleProduct st (some snap) now).notified = false →
        (checkSingleProduct st (some snap) now).stats = emptyStats)
      ∧ ((checkSingleProduct st (some snap) now).notified = true →
          (((checkSingleProduct st (some snap) now).stats.isHistoricalMin = true ↔
              ∃ m, histMin (checkSingleProduct st (some snap) now).state.history = some m
                ∧ cur ≤ m)
            ∧ ((checkSingleProduct st (some snap) now).stats.percentBelowAvg.isSome = true ↔
                (windowAvg (checkSingleProduct st (some snap) now).state.history now ≠ 0
                  ∧ cur < windowAvg (checkSingleProduct st (some snap) now).state.history now))
            ∧ ((checkSingleProduct st (some snap) now).stats.daysSinceLowest.isSome = true →
                (checkSingleProduct st (some snap) now).stats.isHistoricalMin = false))) := by
  rw [checkSingleProduct_success st snap cur now hp]
  dsimp only
  constructor
  · intro hn
    rw [hn]
    simp
  · intro hn
    rw [hn, if_pos (by trivial : (true : Bool) = true)]
    have hmem := mem_historyAfter st.history cur (snap.currency.getD "EUR") now
    have hwmem : (⟨cur, snap.currency.getD "EUR", now⟩ : HistoryRow)
        ∈ windowOf (historyAfter st.history cur (snap.currency.getD "EUR") now) now := by
      rw [windowOf]
      refine List.mem_filter.mpr ⟨hmem, ?_⟩
      simp only [decide_eq_true_eq]
      omega
    obtain ⟨m, hm⟩ :
        ∃ m, histMin (historyAfter st.history cur (snap.currency.getD "EUR") now) = some m :=
      histMin_isSome _ (by
        intro hnil
        rw [hnil] at hmem
        simp at hmem)
    cases hw : windowOf (historyAfter st.history cur (snap.currency.getD "EUR") now) now with
    | nil =>
      rw [hw] at hwmem
      simp at hwmem
    | cons w ws =>
      simp only [computeStats, hw, hm]
      refine ⟨by simp, ?_, ?_⟩
      · rw [windowAvg, windowPrices, hw]
        split
        · rename_i hC
          exact iff_of_true rfl hC
        · rename_i hC
          exact iff_of_false (by simp) hC
      · by_cases hd : (decide (cur ≤ m) = false ∧ (Option.some m).isSome = true)
        · rw [if_pos hd]
          intro _
          exact hd.1
        · rw [if_neg hd]
          simp

/-- C8 counterexample: after a notifiable drop from 100 to 98 with stored
window prices 100 and 98 (mean 99), the detector records the below-average
percentage `100/99` — about one percent — although the drop is not below the
mean "by more than a small threshold" (the presentation layer's threshold is
ten percent); the flag is set for any strictly-below-mean price. -/
theorem C8_counterexample :
    (checkSingleProduct ⟨⟨"B00C8X", none, none, some 100, none⟩,
        [⟨100, "EUR", 0⟩, ⟨100, "EUR", 1⟩]⟩ (some (mkSnapshot 98)) 2).notified = true
      ∧ (checkSingleProduct ⟨⟨"B00C8X", none, none, some 100, none⟩,
          [⟨100, "EUR", 0⟩, ⟨100, "EUR", 1⟩]⟩ (some (mkSnapshot 98)) 2).stats.percentBelowAvg
        = some (100 / 99)
      ∧ (100 : ℚ) / 99 < 2 := by
  refine ⟨by decide, ?_, by norm_num⟩
  have hstats : (checkSingleProduct ⟨⟨"B00C8X", none, none, some 100, none⟩,
      [⟨100, "EUR", 0⟩, ⟨100, "EUR", 1⟩]⟩ (some (mkSnapshot 98)) 2).stats
      = computeStats [⟨100, "EUR", 0⟩, ⟨98, "EUR", 2⟩] 98 2 := by
    rw [checkSingleProduct_success _ (mkSnapshot 98) 98 2 rfl]
    dsimp only
    rw [show historyAfter [⟨100, "EUR", 0⟩, ⟨100, "EUR", 1⟩] (98 : ℚ)
        ((mkSnapshot 98).currency.getD "EUR") 2 = [⟨100, "EUR", 0⟩, ⟨98, "EUR", 2⟩]
      from by decide]
    split
    · rfl
    · rename_i hdp
      exact absurd (by decide) hdp
  rw [hstats]
  have hw : windowOf [⟨100, "EUR", 0⟩, ⟨98, "EUR", 2⟩] 2
      = [⟨100, "EUR", 0⟩, ⟨98, "EUR", 2⟩] := by decide
  have hm : histMin [⟨100, "EUR", 0⟩, ⟨98, "EUR", 2⟩] = some 98 := by decide
  simp only [computeStats, hw, hm]
  norm_num [List.sum_cons, List.sum_nil]

/-- C8 witness: the statistics characterization applied to a concrete item
whose check drops from 100 to 98. -/
theorem C8_witness :
    ((checkSingleProduct ⟨⟨"B00C8W", none, none, some 100, none⟩,
          [⟨100, "EUR", 0⟩, ⟨100, "EUR", 1⟩]⟩ (some (mkSnapshot 98)) 2).notified = false →
        (checkSingleProduct ⟨⟨"B00C8W", none, none, some 100, none⟩,
          [⟨100, "EUR", 0⟩, ⟨100, "EUR", 1⟩]⟩ (some (mkSnapshot 98)) 2).stats = emptyStats)
      ∧ ((checkSingleProduct ⟨⟨"B00C8W", none, none, some 100, none⟩,
            [⟨100, "EUR", 0⟩, ⟨100, "EUR", 1⟩]⟩ (some (mkSnapshot 98)) 2).notified = true →
          (((checkSingleProduct ⟨⟨"B00C8W", none, none, some 100, none⟩,
                [⟨100, "EUR", 0⟩, ⟨100, "EUR", 1⟩]⟩
                (some (mkSnapshot 98)) 2).stats.isHistoricalMin = true ↔
              ∃ m, histMin (checkSingleProduct ⟨⟨"B00C8W", none, none, some 100, none⟩,
                  [⟨100, "EUR", 0⟩, ⟨100, "EUR", 1⟩]⟩
                  (some (mkSnapshot 98)) 2).state.history = some m ∧ (98 : ℚ) ≤ m)
            ∧ ((checkSingleProduct ⟨⟨"B00C8W", none, none, some 100, none⟩,
                  [⟨100, "EUR", 0⟩, ⟨100, "EUR", 1⟩]⟩
                  (some (mkSnapshot 98)) 2).stats.percentBelowAvg.isSome = true ↔
                (windowAvg (checkSingleProduct ⟨⟨"B00C8W", none, none, some 100, none⟩,
                    [⟨100, "EUR", 0⟩, ⟨100, "EUR", 1⟩]⟩
                    (some (mkSnapshot 98)) 2).state.history 2 ≠ 0
                  ∧ (98 : ℚ) < windowAvg (checkSingleProduct
                    ⟨⟨"B00C8W", none, none, some 100, none⟩,
                      [⟨100, "EUR", 0⟩, ⟨100, "EUR", 1⟩]⟩
                    (some (mkSnapshot 98)) 2).state.history 2))
            ∧ ((checkSingleProduct ⟨⟨"B00C8W", none, none, some 100, none⟩,
                  [⟨100, "EUR", 0⟩, ⟨100, "EUR", 1⟩]⟩
                  (some (mkSnapshot 98)) 2).stats.daysSinceLowest.isSome = true →
                (checkSingleProduct ⟨⟨"B00C8W", none, none, some 100, none⟩,
                  [⟨100, "EUR", 0⟩, ⟨100, "EUR", 1⟩]⟩
                  (some (mkSnapshot 98)) 2).stats.isHistoricalMin = false))) :=
  C8_stats ⟨⟨"B00C8W", none, none, some 100, none⟩, [⟨100, "EUR", 0⟩, ⟨100, "EUR", 1⟩]⟩
    (mkSnapshot 98) 98 2 rfl

/-- ASCII uppercasing never produces a lowercase letter. -/
theorem upperChar_not_lower (c : Char) : isLowerAscii (upperChar c) = false := by
  unfold upperChar isLowerAscii
  split
  · rename_i h
    simp only [Bool.and_eq_true, decide_eq_true_eq] at h
    obtain ⟨h1, h2⟩ := h
    obtain ⟨n, hn⟩ : ∃ n, c.toNat = n := ⟨c.toNat, rfl⟩
    rw [hn] at h1 h2 ⊢
    interval_cases n <;> decide
  · rename_i h
    simpa using h

/-- An uppercase letter or digit is not a lowercase letter. -/
theorem upperAlnum_not_lower (c : Char) (hc : isUpperAlnum c = true) :
    isLowerAscii c = false := by
  simp only [isUpperAlnum, Bool.or_eq_true, Bool.and_eq_true, decide_eq_true_eq] at hc
  by_contra hcon
  rw [Bool.not_eq_false] at hcon
  simp only [isLowerAscii, Bool.and_eq_true, decide_eq_true_eq] at hcon
  omega

/-- A validated ASIN has exactly ten characters, all alphanumeric. -/
theorem isValidAsin_prop (a : String) (h : isValidAsin a = true) :
    a.length = 10 ∧ a.data.all isAlnumAscii = true := by
  simp only [isValidAsin] at h
  split_ifs at h with h1 h2 h3
  exact ⟨by omega, by simpa using h3⟩

/-- The uppercase-and-validate idiom returns only ten-character alphanumeric
strings without lowercase letters. -/
theorem checkCandidate_prop (s a : String) (h : checkCandidate s = some a) :
    a.length = 10 ∧ a.data.all (fun c => isAlnumAscii c && !isLowerAscii c) = true := by
  rw [checkCandidate] at h
  split at h
  · rename_i hv
    obtain rfl : upperStr s = a := Option.some.inj h
    obtain ⟨hl, ha⟩ := isValidAsin_prop _ hv
    refine ⟨hl, ?_⟩
    rw [List.all_eq_true] at ha ⊢
    intro c hc
    have halnum := ha c hc
    have hlow : isLowerAscii c = false := by
      rcases List.mem_map.mp (by simpa [upperStr] using hc) with ⟨c0, _, rfl⟩
      exact upperChar_not_lower c0
    simp [halnum, hlow]
  · exact absurd h (by simp)

/-- Unwrapping `Option.orElse`. -/
theorem orElse_eq_some (x : Option String) (f : Unit → Option String) (a : String)
    (h : x.orElse f = some a) : x = some a ∨ f () = some a := by
  cases x with
  | some v => exact Or.inl h
  | none => exact Or.inr h

/-- One path pattern returns only validated uppercase candidates. -/
theorem tryPathPattern_prop (lit : String) (u : List Char) (a : String)
    (h : tryPathPattern lit u = some a) :
    a.length = 10 ∧ a.data.all (fun c => isAlnumAscii c && !isLowerAscii c) = true := by
  rw [tryPathPattern] at h
  cases hs : searchLitAsin lit.data u with
  | none =>
    rw [hs] at h
    exact absurd h (by simp)
  | some cand =>
    rw [hs] at h
    exact checkCandidate_prop _ _ h

/-- The path-pattern loop returns only validated uppercase candidates. -/
theorem matchPathPatterns_prop (u : List Char) (a : String)
    (h : matchPathPatterns u = some a) :
    a.length = 10 ∧ a.data.all (fun c => isAlnumAscii c && !isLowerAscii c) = true := by
  rw [matchPathPatterns] at h
  rcases orElse_eq_some _ _ _ h with h1 | h1
  · exact tryPathPattern_prop _ _ _ h1
  · rcases orElse_eq_some _ _ _ h1 with h2 | h2
    · exact tryPathPattern_prop _ _ _ h2
    · exact tryPathPattern_prop _ _ _ h2

/-- The query-parameter block returns only validated uppercase candidates. -/
theorem matchQueryParams_prop (u : List Char) (a : String)
    (h : matchQueryParams u = some a) :
    a.length = 10 ∧ a.data.all (fun c => isAlnumAscii c && !isLowerAscii c) = true := by
  rw [matchQueryParams] at h
  rcases orElse_eq_some _ _ _ h with h1 | h1
  · cases hq : qsFirst (parseQs (urlQuery u)) "asin" with
    | none => rw [hq] at h1; exact absurd h1 (by simp)
    | some v => rw [hq] at h1; exact checkCandidate_prop _ _ h1
  · cases hq : qsFirst (parseQs (urlQuery u)) "pd_rd_i" with
    | none => rw [hq] at h1; exact absurd h1 (by simp)
    | some v => rw [hq] at h1; exact checkCandidate_prop _ _ h1

/-- `takeClass` returns exactly `k` characters, all satisfying the class. -/
theorem takeClass_spec (p : Char → Bool) (k : Nat) (s d rest : List Char)
    (h : takeClass p k s = some (d, rest)) : d.length = k ∧ ∀ c ∈ d, p c = true := by
  induction k generalizing s d rest with
  | zero =>
    simp only [takeClass, Option.some.injEq, Prod.mk.injEq] at h
    obtain ⟨rfl, rfl⟩ := h
    exact ⟨rfl, by simp⟩
  | succ k ih =>
    cases s with
    | nil => simp [takeClass] at h
    | cons c cs =>
      rw [takeClass] at h
      by_cases hp : p c = true
      · rw [if_pos hp] at h
        cases ht : takeClass p k cs with
        | none => rw [ht] at h; simp at h
        | some pr =>
          obtain ⟨d2, rest2⟩ := pr
          rw [ht] at h
          simp only [Option.some.injEq, Prod.mk.injEq] at h
          obtain ⟨rfl, rfl⟩ := h
          obtain ⟨hlen, hmem⟩ := ih cs d2 rest2 ht
          refine ⟨by simp [hlen], ?_⟩
          intro x hx
          rcases List.mem_cons.mp hx with rfl | hx2
          · exact hp
          · exact hmem x hx2
      · rw [if_neg hp] at h
        simp at h

/-- A match of `\b(B[0-9A-Z]{9})\b` contains no lowercase letters. -/
theorem matchBAsinAt_chars (b : Bool) (s l : List Char)
    (h : matchBAsinAt b s = some l) : ∀ c ∈ l, isLowerAscii c = false := by
  rw [matchBAsinAt.eq_def] at h
  split at h
  · exact absurd h (by simp)
  · cases s with
    | nil => simp at h
    | cons c0 cs =>
      dsimp only at h
      by_cases hB : c0 = 'B'
      · rw [if_pos hB] at h
        cases ht : takeClass isUpperAlnum 9 cs with
        | none => rw [ht] at h; simp at h
        | some pr =>
          obtain ⟨d, rest⟩ := pr
          rw [ht] at h
          dsimp only at h
          obtain ⟨_, hdchars⟩ := takeClass_spec _ _ _ _ _ ht
          have hmain : ∀ c ∈ c0 :: d, isLowerAscii c = false := by
            intro c hc
            rcases List.mem_cons.mp hc with rfl | hcd
            · rw [hB]
              decide
            · exact upperAlnum_not_lower _ (hdchars _ hcd)
          cases rest with
          | nil =>
            obtain rfl : c0 :: d = l := Option.some.inj h
            exact hmain
          | cons c2 cs2 =>
            split at h
            · obtain rfl : c0 :: d = l := Option.some.inj h
              exact hmain
            · split at h
              · exact absurd h (by simp)
              · obtain rfl : c0 :: d = l := Option.some.inj h
                exact hmain
      · rw [if_neg hB] at h
        simp at h

/-- The `\b(B[0-9A-Z]{9})\b` search returns no lowercase letters. -/
theorem searchBAsinAux_chars (b : Bool) (s l : List Char)
    (h : searchBAsinAux b s = some l) : ∀ c ∈ l, isLowerAscii c = false := by
  induction s generalizing b with
  | nil => simp [searchBAsinAux] at h
  | cons c cs ih =>
    rw [searchBAsinAux] at h
    cases hb : matchBAsinAt b (c :: cs) with
    | none => rw [hb] at h; exact ih _ h
    | some r =>
      rw [hb] at h
      obtain rfl : r = l := Option.some.inj h
      exact matchBAsinAt_chars _ _ _ hb

/-- The guarded fallback block returns only validated uppercase candidates. -/
theorem matchFallback_prop (u : List Char) (a : String)
    (h : matchFallback u = some a) :
    a.length = 10 ∧ a.data.all (fun c => isAlnumAscii c && !isLowerAscii c) = true := by
  rw [matchFallback] at h
  split at h
  · cases hs : searchBAsin (u.map upperChar) with
    | none => rw [hs] at h; exact absurd h (by simp)
    | some cand =>
      rw [hs] at h
      dsimp only at h
      split at h
      · rename_i hv
        obtain rfl : cand = a := Option.some.inj h
        obtain ⟨hl, ha⟩ := isValidAsin_prop _ hv
        refine ⟨hl, ?_⟩
        rw [searchBAsin] at hs
        cases haux : searchBAsinAux false (u.map upperChar) with
        | none => rw [haux] at hs; simp at hs
        | some l =>
          rw [haux] at hs
          simp only [Option.map_some', Option.some.injEq] at hs
          have hchars := searchBAsinAux_chars _ _ _ haux
          rw [List.all_eq_true] at ha ⊢
          intro c hc
          have h1 := ha c hc
          have h2 : isLowerAscii c = false := by
            refine hchars c ?_
            rw [← hs] at hc
            simpa using hc
          simp [h1, h2]
      · exact absurd h (by simp)
  · exact absurd h (by simp)

/-- C10: on every input, ASIN extraction returns nothing or a string of
exactly ten alphanumeric characters with no lowercase letters — every return
path uppercases its candidate and validates it (the fallback pattern matches
only uppercase characters to begin with). -/
theorem C10_asin_shape (url a : String) (h : extractAsinFromUrl url = some a) :
    a.length = 10 ∧ a.data.all (fun c => isAlnumAscii c && !isLowerAscii c) = true := by
  rw [extractAsinFromUrl] at h
  split at h
  · exact absurd h (by simp)
  · rcases orElse_eq_some _ _ _ h with h1 | h1
    · exact matchPathPatterns_prop _ _ h1
    · rcases orElse_eq_some _ _ _ h1 with h2 | h2
      · exact matchQueryParams_prop _ _ h2
      · exact matchFallback_prop _ _ h2

/-- C10 witness: extraction from a concrete product URL yields a ten-character
uppercase alphanumeric ASIN. -/
theorem C10_witness :
    extractAsinFromUrl "https://www.amazon.it/dp/b08n5wrwnw" = some "B08N5WRWNW"
      ∧ ("B08N5WRWNW".length = 10
        ∧ "B08N5WRWNW".data.all (fun c => isAlnumAscii c && !isLowerAscii c) = true) :=
  ⟨by decide, C10_asin_shape "https://www.amazon.it/dp/b08n5wrwnw" "B08N5WRWNW" (by decide)⟩
